import Mathlib

/-!
Shallow embedding of the call-agent extension (call lifecycle manager,
realtime voice session, report tool, mu-law audio transcoder, and the
calendar slot engine), together with theorems settling the spec claims.

Machine numbers are modelled as `Int`/`Nat`/`Rat`; JS strings as `String`
(ASCII-relevant operations only); timestamps as milliseconds since epoch.
Platform functions (`Intl` timezone decomposition, the system timezone)
are passed in as an explicit environment.
-/

/-! ## JS string helpers (from `String.prototype` semantics used by the source) -/

/-- The character class matched by the JS regex `\s` (whitespace). -/
def jsWhitespace (c : Char) : Bool :=
  c = ' ' || c = '\t' || c = '\n' || c = '\r' || c = '\x0b' || c = '\x0c' ||
  c = '\u00A0' || c = '\u1680' || ('\u2000' ≤ c && c ≤ '\u200A') ||
  c = '\u2028' || c = '\u2029' || c = '\u202F' || c = '\u205F' ||
  c = '\u3000' || c = '\uFEFF'

/-- JS `String.prototype.trim`: strip leading and trailing whitespace. -/
def jsTrim (s : String) : String :=
  ⟨((s.data.dropWhile (fun c => jsWhitespace c)).reverse.dropWhile
      (fun c => jsWhitespace c)).reverse⟩

/-! ## JSON values (runtime view of `any`-typed tool arguments) -/

/-- A JS runtime value as received by a tool `execute` callback. -/
inductive Json where
  | null : Json
  | undef : Json
  | bool : Bool → Json
  | num : Rat → Json
  | str : String → Json
  | arr : List Json → Json
  | obj : List (String × Json) → Json

/-- Property access `v[k]`: `none` models JS `undefined` for a missing key
or a non-object receiver. -/
def Json.field : Json → String → Option Json
  | .obj fs, k => (fs.find? (fun kv => kv.1 == k)).map (fun kv => kv.2)
  | _, _ => none

/-! ## Call records (src/src/types.ts)

`CallStatus` is a string union in TypeScript; at runtime statuses are plain
strings, so they are modelled as `String`.
-/

/-- `CallReport` (src/src/types.ts): the normalized outcome report. -/
structure CallReport where
  summary : String
  outcome : String
  nextSteps : Option (List String)
  data : Option (List (String × Json))

/-- The fields of `CallRecord` (src/src/types.ts) that the modelled
operations read or write. Timestamps are abstract clock readings. -/
structure CallRec where
  status : String
  attempt : Int
  report : Option CallReport
  completedAt : Option Nat
  updatedAt : Nat

/-! ## Call lifecycle manager (src/src/call-manager.ts) -/

/-- `normalizeStatus` (src/src/call-manager.ts:107):
`value.toLowerCase().replace(/[-\s]/g, "_")`. -/
def normalizeStatus (value : String) : String :=
  ⟨(value.data.map Char.toLower).map
    (fun c => if c = '-' || jsWhitespace c then '_' else c)⟩

/-- The retry section of `PluginConfig` used by `CallManager`. -/
structure RetryConfig where
  maxAttempts : Int
  initialDelayMs : Rat
  backoffFactor : Rat
  retryStatuses : List String

/-- `CallManager.shouldRetry` (src/src/call-manager.ts:83). -/
def shouldRetry (cfg : RetryConfig) (status : String) (call : CallRec) : Bool :=
  if call.attempt ≥ cfg.maxAttempts then false
  else (cfg.retryStatuses.map normalizeStatus).contains (normalizeStatus status)

/-- JS `Math.round`: round half toward positive infinity. -/
def jsRound (q : Rat) : Int := ⌊q + 1 / 2⌋

/-- `CallManager.nextDelay` (src/src/call-manager.ts:89):
`Math.round(initialDelayMs * Math.pow(backoffFactor, Math.max(0, attempt - 1)))`. -/
def nextDelay (cfg : RetryConfig) (attempt : Int) : Int :=
  jsRound (cfg.initialDelayMs * cfg.backoffFactor ^ (max 0 (attempt - 1)).toNat)

/-- The status/attempt effect of `CallManager.dial` (src/src/call-manager.ts:53):
increments the attempt counter and sets status `"dialing"`, unconditionally. -/
def dialStep (c : CallRec) (now : Nat) : CallRec :=
  { c with attempt := c.attempt + 1, status := "dialing", updatedAt := now }

/-- The record effect of `CallManager.handleProviderStatus`
(src/src/call-manager.ts:68): stores the reported status unconditionally. -/
def providerStatusStep (c : CallRec) (status : String) (now : Nat) : CallRec :=
  { c with status := status, updatedAt := now }

/-- `CallManager.handleProviderStatus` including its retry decision: the
returned flag is true exactly when a future dial is scheduled via
`setTimeout` (src/src/call-manager.ts:77). -/
def handleProviderStatus (cfg : RetryConfig) (c : CallRec) (status : String)
    (now : Nat) : CallRec × Bool :=
  let c2 := providerStatusStep c status now
  (c2, shouldRetry cfg status c2)

/-- The record allocated by `CallManager.startCall` (src/src/call-manager.ts:38)
before the immediate first dial. -/
def newCall (now : Nat) : CallRec :=
  { status := "queued", attempt := 0, report := none, completedAt := none,
    updatedAt := now }

/-- A public operation on one call record: a (re)dial, or a provider status
callback carrying a runtime status string. -/
inductive ManagerOp where
  | dial : ManagerOp
  | providerStatus : String → ManagerOp

/-- Apply one public operation to the record (clock fixed at 0 — timestamps
do not influence status or retries). -/
def applyOp (c : CallRec) : ManagerOp → CallRec
  | .dial => dialStep c 0
  | .providerStatus s => providerStatusStep c s 0

/-- The sequence of statuses a record passes through under a sequence of
public operations (initial status included). -/
def statusTrace (c : CallRec) : List ManagerOp → List String
  | [] => [c.status]
  | op :: ops => c.status :: statusTrace (applyOp c op) ops

/-- The transition table of spec section 4.1. -/
def allowedTransition (a b : String) : Bool :=
  (a = "queued" && b = "dialing") ||
  (a = "dialing" && (b = "in_progress" || b = "busy" || b = "no_answer" ||
    b = "failed" || b = "canceled")) ||
  (a = "in_progress" && b = "completed") ||
  ((a = "busy" || a = "no_answer" || a = "failed") && b = "dialing")

/-! ## report_call tool (src/src/openai-realtime.ts) -/

/-- The valid outcome enum of the `report_call` schema. -/
def validOutcomes : List String :=
  ["success", "failure", "voicemail", "no_answer", "unknown"]

/-- The keys destructured away by `extractReportData`. -/
def reservedReportKeys : List String := ["summary", "outcome", "nextSteps", "data"]

/-- `extractReportData` (src/src/openai-realtime.ts:458). Arrays pass the JS
`typeof args === "object"` guard; object rest-destructuring of an array
collects its index keys. -/
def extractReportData : Json → Option (List (String × Json))
  | .obj fs =>
    let rest := fs.filter (fun kv => !(reservedReportKeys.contains kv.1))
    if rest.isEmpty then none else some rest
  | .arr xs =>
    let rest := (List.range xs.length).zip xs |>.map (fun p => (toString p.1, p.2))
    if rest.isEmpty then none else some rest
  | _ => none

/-- `normalizeReport` (src/src/openai-realtime.ts:435). -/
def normalizeReport (args : Json) : CallReport :=
  let summary :=
    match args.field "summary" with
    | some (.str s) => if jsTrim s ≠ "" then jsTrim s else "No summary provided."
    | _ => "No summary provided."
  let outcome :=
    match args.field "outcome" with
    | some (.str s) => if validOutcomes.contains s then s else "unknown"
    | _ => "unknown"
  let nextSteps :=
    match args.field "nextSteps" with
    | some (.arr xs) =>
      some (xs.filterMap (fun j =>
        match j with
        | .str t => if jsTrim t ≠ "" then some (jsTrim t) else none
        | _ => none))
    | _ => none
  let data :=
    match args.field "data" with
    | some (.obj fs) => some fs
    | _ => extractReportData args
  { summary := summary, outcome := outcome, nextSteps := nextSteps, data := data }

/-- The result value a tool `execute` returns to the model. -/
structure ToolResult where
  ok : Bool

/-- `reportCallTool.execute` (src/src/openai-realtime.ts:126): store the
normalized report, completion and update timestamps only when no report is
stored yet; always answer `{ok: true}`. -/
def reportToolExecute (c : CallRec) (args : Json) (now : Nat) : CallRec × ToolResult :=
  match c.report with
  | none =>
    let c2 : CallRec :=
      { c with
        report := some (normalizeReport args)
        completedAt := some now
        updatedAt := now }
    (c2, { ok := true })
  | some _ => (c, { ok := true })

/-! ## Realtime voice session state (src/src/openai-realtime.ts, class
`OpenAIRealtimeSession`) -/

/-- The mutable fields of `OpenAIRealtimeSession` relevant to `close` and
`sendAudioInput`. `hasSession` models `this.session` being assigned;
`transportConnected` models `this.session.transport.status === "connected"`;
`greetingTimerPending` models a live `this.greetingTimer`. -/
structure RtState where
  closed : Bool
  hasSession : Bool
  transportConnected : Bool
  greetingTimerPending : Bool
deriving DecidableEq

/-- External effects performed by one `close` invocation. -/
structure CloseEffects where
  clearedTimer : Bool
  closedInnerSession : Bool
deriving DecidableEq

/-- `OpenAIRealtimeSession.close` (src/src/openai-realtime.ts:79): early
return when already closed; otherwise mark closed, clear the greeting timer
and close the inner realtime session. -/
def rtClose (s : RtState) : RtState × CloseEffects :=
  if s.closed then
    (s, { clearedTimer := false, closedInnerSession := false })
  else
    ({ s with closed := true, greetingTimerPending := false },
     { clearedTimer := s.greetingTimerPending, closedInnerSession := s.hasSession })

/-- External effects performed by one `sendAudioInput` invocation. -/
structure SendEffects where
  sentAudio : Option (List Nat)
  loggedError : Bool
deriving DecidableEq

/-- `OpenAIRealtimeSession.sendAudioInput` (src/src/openai-realtime.ts:86):
drop the frame when closed, when no session exists, or when the transport is
not connected; otherwise decode base64 (`decode` models
`utils.base64ToArrayBuffer`, `none` = thrown decode error, which is caught
and logged). The method never mutates session state. -/
def rtSendAudioInput (s : RtState) (base64 : String)
    (decode : String → Option (List Nat)) : RtState × SendEffects :=
  if s.closed || !s.hasSession then
    (s, { sentAudio := none, loggedError := false })
  else if !s.transportConnected then
    (s, { sentAudio := none, loggedError := false })
  else
    match decode base64 with
    | some buf => (s, { sentAudio := some buf, loggedError := false })
    | none => (s, { sentAudio := none, loggedError := true })

/-! ## Audio transcoder (src/src/openai-realtime.ts:470-508) -/

/-- The source constant `MU_LAW_MAX = 0x1fff`. -/
def MU_LAW_MAX : Int := 0x1fff

/-- The source constant `BIAS = 0x84`. -/
def MU_LAW_BIAS : Int := 0x84

/-- The exponent-search loop of `linearToMuLawSample`
(src/src/openai-realtime.ts:503): starting from `exponent = 7`,
`expMask = 0x4000`, decrement while the masked bit is clear and the
exponent is positive. -/
def muExpAux (v : Nat) : Nat → Nat → Nat
  | 0, _ => 0
  | e + 1, mask => if v &&& mask = 0 then muExpAux v e (mask >>> 1) else e + 1

/-- `linearToMuLawSample` (src/src/openai-realtime.ts:491): sign extraction,
clip of the magnitude at `MU_LAW_MAX = 0x1fff`, bias `0x84`, exponent and
mantissa packing, final one's complement masked to a byte. -/
def linearToMuLawSample (sample : Int) : Nat :=
  let sign : Nat := if sample < 0 then 0x80 else 0
  let mag : Int := if sample < 0 then -sample else sample
  let mag : Int := if mag > MU_LAW_MAX then MU_LAW_MAX else mag
  let v : Nat := (mag + MU_LAW_BIAS).toNat
  let exponent : Nat := muExpAux v 7 0x4000
  let mantissa : Nat := (v >>> (exponent + 3)) &&& 0x0f
  (sign ||| (exponent <<< 4) ||| mantissa) ^^^ 0xff

/-- Modelled from the spec: the standard ITU-T G.711 mu-law encoder for
16-bit linear PCM exactly as section 4.2 describes it — "bias `0x84`,
8-segment logarithmic curve, sign bit in the high order position of the
encoded byte", final byte complemented.  This is the widely used reference
implementation whose magnitude clip is `32635 = 0x7FFF - 0x84`, so the
biased magnitude spans all 8 segments over the full 16-bit input range.
It exists only to be compared with `linearToMuLawSample`, which is the
code's encoder. -/
def muLawRefSample (sample : Int) : Nat :=
  let sign : Nat := if sample < 0 then 0x80 else 0
  let mag : Int := if sample < 0 then -sample else sample
  let mag : Int := if mag > 32635 then 32635 else mag
  let v : Nat := (mag + MU_LAW_BIAS).toNat
  let exponent : Nat := muExpAux v 7 0x4000
  let mantissa : Nat := (v >>> (exponent + 3)) &&& 0x0f
  (sign ||| (exponent <<< 4) ||| mantissa) ^^^ 0xff

/-- `downsamplePcm24To8` (src/src/openai-realtime.ts:470): keep every third
16-bit sample; the output length is `⌊n / 3⌋`. -/
def downsamplePcm24To8 (samples : List Int) : List Int :=
  (List.range (samples.length / 3)).map (fun k => samples.getD (3 * k) 0)

/-- `encodeMuLaw` (src/src/openai-realtime.ts:482): encode each 16-bit
sample with `linearToMuLawSample`. -/
def encodeMuLaw (samples : List Int) : List Nat :=
  samples.map linearToMuLawSample

/-! ## Calendar slot engine (src/calendar-engine.ts, provided unnamed)

Timestamp strings are abstracted by `TimeStr`: `iso ms` stands for any
string that `Date.parse` evaluates to `ms` (in particular the output of
`new Date(ms).toISOString()`, which round-trips), `bad` for a string that
fails to parse (`NaN`).
-/

/-- A timestamp string, abstracted by its `Date.parse` behavior. -/
inductive TimeStr where
  | iso : Int → TimeStr
  | bad : TimeStr
deriving DecidableEq

/-- JS `Date.parse` followed by the `Number.isFinite` check. -/
def dateParse : TimeStr → Option Int
  | .iso ms => some ms
  | .bad => none

/-- `CalendarSlot` (types.ts of the scheduling variant). -/
structure CalendarSlot where
  start : TimeStr
  stop : TimeStr
deriving DecidableEq

/-- `NormalizedSlot` (calendar-engine.ts): parsed bounds plus the original
display strings. -/
structure NormalizedSlot where
  startMs : Int
  endMs : Int
  start : TimeStr
  stop : TimeStr
deriving DecidableEq

/-- `MINUTE_MS` (calendar-engine.ts). -/
def MINUTE_MS : Int := 60000

/-- `normalizeSlot` (calendar-engine.ts:238): parse both bounds, reject
non-parseable timestamps and `end <= start`. -/
def normalizeSlot (slot : CalendarSlot) : Option NormalizedSlot :=
  match dateParse slot.start, dateParse slot.stop with
  | some startMs, some endMs =>
    if endMs ≤ startMs then none
    else some { startMs := startMs, endMs := endMs, start := slot.start, stop := slot.stop }
  | _, _ => none

/-- `overlaps` (calendar-engine.ts:289): half-open interval overlap. -/
def overlapsB (aStart aEnd bStart bEnd : Int) : Bool :=
  decide (aStart < bEnd) && decide (bStart < aEnd)

/-- `CalendarEngine.getOccupiedSlots` (calendar-engine.ts:180): normalize the
stored busy list, silently dropping entries that fail to parse, and sort by
start (`Array.prototype.sort` with comparator `a.startMs - b.startMs` is a
stable ascending sort; a stable insertion sort models it). -/
def getOccupiedSlots (occupied : List CalendarSlot) : List NormalizedSlot :=
  List.insertionSort (fun a b => a.startMs ≤ b.startMs) (occupied.filterMap normalizeSlot)

/-- `CalendarEngine.hasConflict` (calendar-engine.ts:225). -/
def hasConflict (occupied : List NormalizedSlot) (slotStartMs slotEndMs : Int)
    (bufferBeforeMinutes bufferAfterMinutes : Option Int) : Bool :=
  let bufferedStart := slotStartMs - (bufferBeforeMinutes.getD 0) * MINUTE_MS
  let bufferedEnd := slotEndMs + (bufferAfterMinutes.getD 0) * MINUTE_MS
  occupied.any (fun slot => overlapsB bufferedStart bufferedEnd slot.startMs slot.endMs)

/-- `WorkingHours` (types.ts of the scheduling variant). -/
structure WorkingHours where
  start : String
  stop : String
  days : List Int

/-- The output of `getZonedParts` (calendar-engine.ts:254). -/
structure ZonedParts where
  year : Int
  month : Int
  day : Int
  hour : Int
  minute : Int
  weekday : Int

/-- The platform facilities the engine consults: the system timezone
(`Intl.DateTimeFormat().resolvedOptions().timeZone`) and timezone-aware
date decomposition (`getZonedParts`, `none` modelling its `catch` branch). -/
structure CalEnv where
  systemTimeZone : String
  zonedParts : Int → String → Option ZonedParts

/-- The slot-engine state: the call request fields the engine reads. The
constructor guarantees `occupiedTimeslots` is an array. -/
structure EngineState where
  occupied : List CalendarSlot
  reqTimezone : Option String

/-- `parseWorkingMinutes` (calendar-engine.ts:245): regex
`^(\d{1,2}):(\d{2})$` plus range checks. -/
def parseWorkingMinutes (value : String) : Option Int :=
  match value.splitOn ":" with
  | [h, m] =>
    if 1 ≤ h.length && h.length ≤ 2 && h.data.all (fun c => c.isDigit)
        && m.length = 2 && m.data.all (fun c => c.isDigit) then
      let hour : Int := Int.ofNat (h.data.foldl (fun a c => a * 10 + (c.toNat - 48)) 0)
      let minute : Int := Int.ofNat (m.data.foldl (fun a c => a * 10 + (c.toNat - 48)) 0)
      if hour < 0 || hour > 23 || minute < 0 || minute > 59 then none
      else some (hour * 60 + minute)
    else none
  | _ => none

/-- `CalendarEngine.isWithinWorkingHours` (calendar-engine.ts:192). -/
def isWithinWorkingHours (env : CalEnv) (slotStartMs slotEndMs : Int)
    (workingHours : Option WorkingHours) (timezone : Option String) : Bool :=
  match workingHours with
  | none => true
  | some wh =>
    let tz := timezone.getD env.systemTimeZone
    match env.zonedParts slotStartMs tz, env.zonedParts slotEndMs tz with
    | some sp, some ep =>
      if sp.year ≠ ep.year || sp.month ≠ ep.month || sp.day ≠ ep.day then false
      else if !(wh.days.contains sp.weekday) then false
      else
        match parseWorkingMinutes wh.start, parseWorkingMinutes wh.stop with
        | some workingStart, some workingEnd =>
          decide (workingStart ≤ sp.hour * 60 + sp.minute)
            && decide (ep.hour * 60 + ep.minute ≤ workingEnd)
        | _, _ => true
    | _, _ => true

/-- `CalendarFindSlotsRequest` (fields the engine reads). -/
structure FindSlotsReq where
  windowStart : TimeStr
  windowEnd : TimeStr
  durationMinutes : Int
  timezone : Option String
  granularityMinutes : Option Int
  bufferBeforeMinutes : Option Int
  bufferAfterMinutes : Option Int
  workingHours : Option WorkingHours

/-- `CalendarFindSlotsResponse`. -/
structure FindSlotsResp where
  ok : Bool
  timezone : String
  slots : List CalendarSlot
  windowStart : TimeStr
  windowEnd : TimeStr
  error : Option String
deriving DecidableEq

/-- `req.timezone || this.defaultTimezone()` (calendar-engine.ts:83): JS `||`
falls through on the empty string; `defaultTimezone` is
`this.call.request.timezone ?? Intl...timeZone` and always yields a string. -/
def resolveTimezone (env : CalEnv) (st : EngineState) (reqTz : Option String) : String :=
  match reqTz with
  | some t => if t = "" then st.reqTimezone.getD env.systemTimeZone else t
  | none => st.reqTimezone.getD env.systemTimeZone

/-- The slot-collection loop of `CalendarEngine.findSlots`
(calendar-engine.ts:103): walk `t` from the window start in steps of
`granularityMs` while `t + durationMs <= windowEndMs`, skipping candidates
outside working hours or conflicting with a busy interval.  The loop is
written with an explicit step budget (`fuel`); `findSlots` supplies a budget
at least as large as the number of iterations the JS loop performs, so the
two agree. -/
def findSlotsLoop (env : CalEnv) (occupied : List NormalizedSlot)
    (workingHours : Option WorkingHours) (timezone : Option String)
    (windowEndMs durationMs granularityMs : Int)
    (bufferBeforeMinutes bufferAfterMinutes : Option Int) :
    Nat → Int → List CalendarSlot
  | 0, _ => []
  | fuel + 1, t =>
    if t + durationMs ≤ windowEndMs then
      let rest := findSlotsLoop env occupied workingHours timezone windowEndMs
        durationMs granularityMs bufferBeforeMinutes bufferAfterMinutes fuel
        (t + granularityMs)
      if !(isWithinWorkingHours env t (t + durationMs) workingHours timezone) then rest
      else if hasConflict occupied t (t + durationMs) bufferBeforeMinutes
          bufferAfterMinutes then rest
      else { start := TimeStr.iso t, stop := TimeStr.iso (t + durationMs) } :: rest
    else []

/-- `CalendarEngine.findSlots` (calendar-engine.ts:82). -/
def findSlots (env : CalEnv) (st : EngineState) (req : FindSlotsReq) : FindSlotsResp :=
  let timezone := resolveTimezone env st req.timezone
  match dateParse req.windowStart, dateParse req.windowEnd with
  | some windowStartMs, some windowEndMs =>
    if windowEndMs ≤ windowStartMs then
      { ok := false, error := some "Invalid scheduling window.", slots := [],
        timezone := timezone, windowStart := req.windowStart, windowEnd := req.windowEnd }
    else
      let durationMinutes := max 1 req.durationMinutes
      let durationMs := durationMinutes * MINUTE_MS
      let granularityMinutes := max 1 (req.granularityMinutes.getD durationMinutes)
      let granularityMs := granularityMinutes * MINUTE_MS
      let occupied := getOccupiedSlots st.occupied
      let fuel := (windowEndMs - durationMs - windowStartMs + granularityMs).toNat
      { ok := true, timezone := timezone,
        slots := findSlotsLoop env occupied req.workingHours (some timezone)
          windowEndMs durationMs granularityMs req.bufferBeforeMinutes
          req.bufferAfterMinutes fuel windowStartMs,
        windowStart := req.windowStart, windowEnd := req.windowEnd, error := none }
  | _, _ =>
    { ok := false, error := some "Invalid scheduling window.", slots := [],
      timezone := timezone, windowStart := req.windowStart, windowEnd := req.windowEnd }

/-- `CalendarCheckSlotRequest` (fields the engine reads; `calendarIds` and
`timezone` are accepted but unused by `checkSlot`). -/
structure CheckSlotReq where
  calendarIds : List String
  start : TimeStr
  stop : TimeStr
  timezone : Option String
  bufferBeforeMinutes : Option Int
  bufferAfterMinutes : Option Int

/-- A conflict entry of `CalendarCheckSlotResponse`. -/
structure ConflictEntry where
  summary : String
  start : TimeStr
  stop : TimeStr
deriving DecidableEq

/-- `CalendarCheckSlotResponse`. -/
structure CheckSlotResp where
  ok : Bool
  conflicts : Option (List ConflictEntry)
  error : Option String
deriving DecidableEq

/-- `CalendarEngine.checkSlot` (calendar-engine.ts:130). -/
def checkSlot (st : EngineState) (req : CheckSlotReq) : CheckSlotResp :=
  match dateParse req.start, dateParse req.stop with
  | some startMs, some endMs =>
    if endMs ≤ startMs then
      { ok := false, conflicts := none, error := some "Invalid slot time." }
    else
      let occupied := getOccupiedSlots st.occupied
      let bufferedStart := startMs - (req.bufferBeforeMinutes.getD 0) * MINUTE_MS
      let bufferedEnd := endMs + (req.bufferAfterMinutes.getD 0) * MINUTE_MS
      let conflicts := (occupied.filter (fun slot =>
          overlapsB bufferedStart bufferedEnd slot.startMs slot.endMs)).map
        (fun slot => { summary := "Busy", start := slot.start, stop := slot.stop })
      { ok := true, conflicts := some conflicts, error := none }
  | _, _ => { ok := false, conflicts := none, error := some "Invalid slot time." }

/-- `CalendarCreateEventRequest` (fields the engine reads). -/
structure CreateEventReq where
  calendarId : String
  start : TimeStr
  stop : TimeStr
  timezone : String
  title : String

/-- `CalendarCreateEventResponse`. -/
structure CreateEventResp where
  ok : Bool
  eventId : Option String
  calendarId : Option String
  start : Option TimeStr
  stop : Option TimeStr
  timezone : Option String
  error : Option String
deriving DecidableEq

/-- `CalendarEngine.createEvent` (calendar-engine.ts:147): re-validate via
`checkSlot` (no buffers), fail on invalid slot or conflicts without touching
state, otherwise append the requested interval to the stored busy list and
return a synthetic event reference (`uuid` models `randomUUID()`). -/
def createEvent (uuid : String) (st : EngineState) (req : CreateEventReq) :
    CreateEventResp × EngineState :=
  let check := checkSlot st
    { calendarIds := [req.calendarId], start := req.start, stop := req.stop,
      timezone := some req.timezone, bufferBeforeMinutes := none,
      bufferAfterMinutes := none }
  if !check.ok then
    ({ ok := false, eventId := none, calendarId := none, start := none, stop := none,
       timezone := none, error := some (check.error.getD "Unable to validate slot.") }, st)
  else if (check.conflicts.getD []).length > 0 then
    ({ ok := false, eventId := none, calendarId := none, start := none, stop := none,
       timezone := none, error := some "Requested slot conflicts with existing events." },
     st)
  else
    ({ ok := true, eventId := some ("evt_" ++ uuid), calendarId := some req.calendarId,
       start := some req.start, stop := some req.stop, timezone := some req.timezone,
       error := none },
     { st with occupied := st.occupied ++ [{ start := req.start, stop := req.stop }] })

/-- Every adjacent pair of a status sequence lies in the section 4.1
transition table. -/
def traceAllowed : List String → Bool
  | a :: b :: rest => allowedTransition a b && traceAllowed (b :: rest)
  | _ => true

/-! ## Theorems -/

/-- C2: if a call record already has an outcome report stored, a later
invocation of the report_call tool leaves the record's report, completedAt
and updatedAt fields unchanged, and still returns a success result
(`ok = true`) to the model. -/
theorem c2_report_first_write_wins (c : CallRec) (args : Json) (now : Nat)
    (h : c.report.isSome = true) :
    (reportToolExecute c args now).1.report = c.report ∧
    (reportToolExecute c args now).1.completedAt = c.completedAt ∧
    (reportToolExecute c args now).1.updatedAt = c.updatedAt ∧
    (reportToolExecute c args now).2 = { ok := true } := by
  cases hr : c.report with
  | none => rw [hr] at h; cases h
  | some r => simp [reportToolExecute, hr]

/-- Witness for C2 at a record that already carries a report. -/
theorem c2_report_first_write_wins_witness :
    let rep : CallReport :=
      { summary := "done", outcome := "success", nextSteps := none, data := none }
    let c : CallRec :=
      { status := "in_progress", attempt := 1, report := some rep,
        completedAt := some 5, updatedAt := 5 }
    (reportToolExecute c Json.null 9).1.report = some rep ∧
    (reportToolExecute c Json.null 9).1.completedAt = some 5 ∧
    (reportToolExecute c Json.null 9).1.updatedAt = 5 ∧
    (reportToolExecute c Json.null 9).2 = { ok := true } :=
  c2_report_first_write_wins _ Json.null 9 rfl

/-- C3: for every attempt number n ≥ 1, `nextDelay n` is
`initialDelayMs * backoffFactor ^ (n - 1)` rounded to the nearest
millisecond, and for initialDelayMs = 60000, backoffFactor = 2 the delays
for attempts 1, 2, 3 are 60000, 120000, 240000. -/
theorem c3_backoff_delays :
    (∀ (cfg : RetryConfig) (n : Int), 1 ≤ n →
      nextDelay cfg n = jsRound (cfg.initialDelayMs * cfg.backoffFactor ^ (n - 1).toNat)) ∧
    (∀ cfg : RetryConfig, cfg.initialDelayMs = 60000 → cfg.backoffFactor = 2 →
      nextDelay cfg 1 = 60000 ∧ nextDelay cfg 2 = 120000 ∧ nextDelay cfg 3 = 240000) := by
  constructor
  · intro cfg n hn
    have hmax : max 0 (n - 1) = n - 1 := by omega
    rw [nextDelay, hmax]
  · intro cfg h1 h2
    have ht : Int.toNat 2 = 2 := rfl
    refine ⟨?_, ?_, ?_⟩ <;>
      simp only [nextDelay, jsRound, h1, h2] <;>
      rw [Int.floor_eq_iff] <;> norm_num [ht]

/-- Witness for C3, applying the general formula at attempt 2. -/
theorem c3_backoff_delays_witness :
    let cfg : RetryConfig :=
      { maxAttempts := 3, initialDelayMs := 60000, backoffFactor := 2,
        retryStatuses := ["busy"] }
    nextDelay cfg 2 = jsRound ((60000 : Rat) * (2 : Rat) ^ ((2 : Int) - 1).toNat) :=
  c3_backoff_delays.1 _ 2 (by norm_num)

/-- C4: after a provider status callback a further dial is scheduled iff the
attempt counter is strictly below maxAttempts and the normalized reported
status (lowercased, hyphens/whitespace replaced by underscores) equals some
similarly-normalized configured retry status; "no-answer" and "no_answer"
normalize identically. -/
theorem c4_retry_decision :
    (∀ (cfg : RetryConfig) (c : CallRec) (s : String) (now : Nat),
      (handleProviderStatus cfg c s now).2 = true ↔
        (c.attempt < cfg.maxAttempts ∧
          ∃ r ∈ cfg.retryStatuses, normalizeStatus s = normalizeStatus r)) ∧
    normalizeStatus "no-answer" = "no_answer" ∧
    normalizeStatus "no_answer" = "no_answer" := by
  refine ⟨?_, by decide, by decide⟩
  intro cfg c s now
  have hattempt : (providerStatusStep c s now).attempt = c.attempt := rfl
  simp only [handleProviderStatus, shouldRetry, hattempt]
  split
  · next hge => simp; omega
  · next hlt =>
    simp only [List.elem_iff, List.mem_map]
    constructor
    · rintro ⟨r, hr, hEq⟩
      exact ⟨by omega, r, hr, hEq.symm⟩
    · rintro ⟨_, r, hr, hEq⟩
      exact ⟨r, hr, hEq.symm⟩

/-- C9: closing a realtime session marks it closed immediately; closing an
already-closed session is a no-op with no external effects; and
sendAudioInput on a closed session returns silently — no audio sent, no
error logged, no state change. -/
theorem c9_close_idempotent :
    (∀ s : RtState, (rtClose s).1.closed = true ∧
      rtClose (rtClose s).1 =
        ((rtClose s).1, { clearedTimer := false, closedInnerSession := false })) ∧
    (∀ (s : RtState) (b64 : String) (decode : String → Option (List Nat)),
      s.closed = true →
      rtSendAudioInput s b64 decode = (s, { sentAudio := none, loggedError := false })) := by
  constructor
  · intro s
    by_cases h : s.closed = true
    · simp [rtClose, h]
    · simp only [Bool.not_eq_true] at h
      simp [rtClose, h]
  · intro s b64 decode h
    simp [rtSendAudioInput, h]

/-- Witness for C9 at a concrete closed session. -/
theorem c9_close_idempotent_witness :
    let s : RtState :=
      { closed := true, hasSession := true, transportConnected := true,
        greetingTimerPending := false }
    rtSendAudioInput s "QUJD" (fun _ => some [65, 66, 67]) =
      (s, { sentAudio := none, loggedError := false }) :=
  c9_close_idempotent.2 _ "QUJD" (fun _ => some [65, 66, 67]) rfl

/-- C1 counterexample: the claim that a record's status only ever changes
along the section 4.1 transitions fails — the public operations contain no
guard, so the sequence startCall-dial, provider callback "completed",
provider callback "dialing" drives a record through the illegal transition
completed → dialing. -/
theorem c1_transitions_counterexample :
    ¬ ∀ ops : List ManagerOp,
      traceAllowed (statusTrace (newCall 0) ops) = true := by
  intro h
  exact absurd
    (h [ManagerOp.dial, ManagerOp.providerStatus "completed",
      ManagerOp.providerStatus "dialing"]) (by decide)

/-- C1 amended: the CallManager enforces no transition guard. A record is
created with status queued; every dial unconditionally sets status dialing
and increments the attempt counter; every provider status callback
unconditionally stores the reported status (so the section 4.1 table, in
particular terminality of completed/canceled, is not enforced and illegal
transitions such as completed → dialing are constructible). -/
theorem c1_transitions_amended (c : CallRec) (s : String) (now : Nat) :
    (newCall now).status = "queued" ∧
    (newCall now).attempt = 0 ∧
    (dialStep c now).status = "dialing" ∧
    (dialStep c now).attempt = c.attempt + 1 ∧
    (providerStatusStep c s now).status = s ∧
    (providerStatusStep c s now).attempt = c.attempt :=
  ⟨rfl, rfl, rfl, rfl, rfl, rfl⟩

/-- C10 counterexample: the claim that unrecognized extra keys are always
collected into the data field fails — when the arguments carry an explicit
object-valued data field, it wins and extra keys are discarded. -/
theorem c10_normalize_report_counterexample :
    (normalizeReport (Json.obj [("summary", Json.str "hi"),
      ("data", Json.obj [("a", Json.num 1)]), ("extra", Json.num 2)])).data =
      some [("a", Json.num 1)] ∧
    ¬ "extra" ∈ ((normalizeReport (Json.obj [("summary", Json.str "hi"),
      ("data", Json.obj [("a", Json.num 1)]), ("extra", Json.num 2)])).data.getD []).map
        Prod.fst := by
  constructor
  · rfl
  · intro hmem
    have : ((normalizeReport (Json.obj [("summary", Json.str "hi"),
        ("data", Json.obj [("a", Json.num 1)]), ("extra", Json.num 2)])).data.getD []).map
          Prod.fst = ["a"] := rfl
    rw [this] at hmem
    simp at hmem

/-- Field characterization of `normalizeReport`: summary. -/
theorem normalizeReport_summary (args : Json) :
    (normalizeReport args).summary =
      match args.field "summary" with
      | some (Json.str s) => if jsTrim s ≠ "" then jsTrim s else "No summary provided."
      | _ => "No summary provided." := rfl

/-- Field characterization of `normalizeReport`: outcome. -/
theorem normalizeReport_outcome (args : Json) :
    (normalizeReport args).outcome =
      match args.field "outcome" with
      | some (Json.str s) => if validOutcomes.contains s then s else "unknown"
      | _ => "unknown" := rfl

/-- Field characterization of `normalizeReport`: nextSteps. -/
theorem normalizeReport_nextSteps (args : Json) :
    (normalizeReport args).nextSteps =
      match args.field "nextSteps" with
      | some (Json.arr xs) =>
        some (xs.filterMap (fun j =>
          match j with
          | Json.str t => if jsTrim t ≠ "" then some (jsTrim t) else none
          | _ => none))
      | _ => none := rfl

/-- Field characterization of `normalizeReport`: data. -/
theorem normalizeReport_data (args : Json) :
    (normalizeReport args).data =
      match args.field "data" with
      | some (Json.obj fs) => some fs
      | _ => extractReportData args := rfl

/-- C10 amended: `normalizeReport` is total and yields a well-formed report:
the summary is the trimmed argument summary when that trims to a non-empty
string and the literal "No summary provided." otherwise; the outcome is the
argument outcome when it is one of the five valid outcome strings and
"unknown" otherwise; nextSteps keeps only non-empty strings; the data field
is the argument's own data field when that is a non-array object, and only
otherwise are the unrecognized extra keys collected into data (absent when
there are none). -/
theorem c10_normalize_report_amended (args : Json) :
    ((∃ s, args.field "summary" = some (Json.str s) ∧ jsTrim s ≠ "" ∧
        (normalizeReport args).summary = jsTrim s) ∨
      ((normalizeReport args).summary = "No summary provided." ∧
        ∀ s, args.field "summary" = some (Json.str s) → jsTrim s = "")) ∧
    (normalizeReport args).outcome ∈ validOutcomes ∧
    ((∃ s, args.field "outcome" = some (Json.str s) ∧ s ∈ validOutcomes ∧
        (normalizeReport args).outcome = s) ∨
      ((normalizeReport args).outcome = "unknown" ∧
        ∀ s, args.field "outcome" = some (Json.str s) → s ∉ validOutcomes)) ∧
    (∀ steps, (normalizeReport args).nextSteps = some steps → ∀ t ∈ steps, t ≠ "") ∧
    (∀ fs, args.field "data" = some (Json.obj fs) → (normalizeReport args).data = some fs) ∧
    (∀ fields, args = Json.obj fields →
      (∀ fs, args.field "data" ≠ some (Json.obj fs)) →
      (normalizeReport args).data =
        (if (fields.filter (fun kv => !(reservedReportKeys.contains kv.1))).isEmpty
          then none
          else some (fields.filter (fun kv => !(reservedReportKeys.contains kv.1))))) := by
  refine ⟨?_, ?_, ?_, ?_, ?_, ?_⟩
  · rw [normalizeReport_summary]
    cases hs : args.field "summary" with
    | none => exact Or.inr ⟨rfl, fun s hsome => by simp at hsome⟩
    | some j =>
      cases j with
      | str s =>
        by_cases ht : jsTrim s = ""
        · refine Or.inr ⟨by simp [ht], ?_⟩
          intro u hu
          simp only [Option.some.injEq, Json.str.injEq] at hu
          rw [← hu]
          exact ht
        · exact Or.inl ⟨s, rfl, ht, by simp [ht]⟩
      | null => exact Or.inr ⟨rfl, fun s hsome => by simp at hsome⟩
      | undef => exact Or.inr ⟨rfl, fun s hsome => by simp at hsome⟩
      | bool b => exact Or.inr ⟨rfl, fun s hsome => by simp at hsome⟩
      | num q => exact Or.inr ⟨rfl, fun s hsome => by simp at hsome⟩
      | arr xs => exact Or.inr ⟨rfl, fun s hsome => by simp at hsome⟩
      | obj fs => exact Or.inr ⟨rfl, fun s hsome => by simp at hsome⟩
  · rw [normalizeReport_outcome]
    have hunk : "unknown" ∈ validOutcomes := by simp [validOutcomes]
    cases ho : args.field "outcome" with
    | none => exact hunk
    | some j =>
      cases j with
      | str s =>
        by_cases hv : validOutcomes.contains s = true
        · show (if validOutcomes.contains s = true then s else "unknown") ∈ validOutcomes
          rw [if_pos hv]
          exact List.elem_iff.mp hv
        · show (if validOutcomes.contains s = true then s else "unknown") ∈ validOutcomes
          rw [if_neg hv]
          exact hunk
      | null => exact hunk
      | undef => exact hunk
      | bool b => exact hunk
      | num q => exact hunk
      | arr xs => exact hunk
      | obj fs => exact hunk
  · rw [normalizeReport_outcome]
    cases ho : args.field "outcome" with
    | none => exact Or.inr ⟨rfl, fun s hsome => by simp at hsome⟩
    | some j =>
      cases j with
      | str s =>
        by_cases hv : validOutcomes.contains s = true
        · refine Or.inl ⟨s, rfl, List.elem_iff.mp hv, ?_⟩
          show (if validOutcomes.contains s = true then s else "unknown") = s
          rw [if_pos hv]
        · refine Or.inr ⟨?_, ?_⟩
          · show (if validOutcomes.contains s = true then s else "unknown") = "unknown"
            rw [if_neg hv]
          · intro u hu
            simp only [Option.some.injEq, Json.str.injEq] at hu
            rw [← hu]
            intro hmem
            exact hv (List.elem_iff.mpr hmem)
      | null => exact Or.inr ⟨rfl, fun s hsome => by simp at hsome⟩
      | undef => exact Or.inr ⟨rfl, fun s hsome => by simp at hsome⟩
      | bool b => exact Or.inr ⟨rfl, fun s hsome => by simp at hsome⟩
      | num q => exact Or.inr ⟨rfl, fun s hsome => by simp at hsome⟩
      | arr xs => exact Or.inr ⟨rfl, fun s hsome => by simp at hsome⟩
      | obj fs => exact Or.inr ⟨rfl, fun s hsome => by simp at hsome⟩
  · intro steps hsteps t ht
    rw [normalizeReport_nextSteps] at hsteps
    cases hn : args.field "nextSteps" with
    | none => rw [hn] at hsteps; cases hsteps
    | some j =>
      rw [hn] at hsteps
      cases j with
      | arr xs =>
        simp only [Option.some.injEq] at hsteps
        rw [← hsteps] at ht
        obtain ⟨j, hjmem, hj⟩ := List.mem_filterMap.mp ht
        cases j with
        | str u =>
          by_cases hu : jsTrim u = ""
          · simp [hu] at hj
          · simp only [ne_eq, hu, not_false_iff, if_true, Option.some.injEq] at hj
            rw [← hj]
            exact hu
        | null => cases hj
        | undef => cases hj
        | bool b => cases hj
        | num q => cases hj
        | arr ys => cases hj
        | obj fs => cases hj
      | null => cases hsteps
      | undef => cases hsteps
      | bool b => cases hsteps
      | num q => cases hsteps
      | str u => cases hsteps
      | obj fs => cases hsteps
  · intro fs hfs
    rw [normalizeReport_data, hfs]
  · intro fields hfields hnotobj
    subst hfields
    have hdata : (normalizeReport (Json.obj fields)).data =
        extractReportData (Json.obj fields) := by
      rw [normalizeReport_data]
      cases hd : (Json.obj fields).field "data" with
      | none => rfl
      | some j =>
        cases j with
        | obj fs => exact absurd hd (hnotobj fs)
        | null => rfl
        | undef => rfl
        | bool b => rfl
        | num q => rfl
        | str u => rfl
        | arr xs => rfl
    rw [hdata]
    rfl

/-- Witness for C10, applying the data-field characterization at a concrete
argument object with an extra key and no data field. -/
theorem c10_normalize_report_amended_witness :
    (normalizeReport (Json.obj [("summary", Json.str "hi"), ("x", Json.num 3)])).data =
      (if (([("summary", Json.str "hi"), ("x", Json.num 3)].filter
          (fun kv : String × Json => !(reservedReportKeys.contains kv.1))).isEmpty)
        then none
        else some ([("summary", Json.str "hi"), ("x", Json.num 3)].filter
          (fun kv : String × Json => !(reservedReportKeys.contains kv.1)))) :=
  (c10_normalize_report_amended
      (Json.obj [("summary", Json.str "hi"), ("x", Json.num 3)])).2.2.2.2.2
    [("summary", Json.str "hi"), ("x", Json.num 3)] rfl (fun _ h => nomatch h)

/-- C6 counterexample: `linearToMuLawSample` does not implement the standard
ITU-T G.711 mu-law companding law over the full 16-bit input range — it
clips the magnitude at 0x1FFF (8191) instead of 32635, so the full-scale
sample 32767 encodes to 0x9F where the standard encoder produces 0x80. -/
theorem c6_mu_law_counterexample :
    linearToMuLawSample 32767 = 0x9f ∧ muLawRefSample 32767 = 0x80 ∧
    linearToMuLawSample 32767 ≠ muLawRefSample 32767 := by
  refine ⟨by decide, by decide, by decide⟩

/-- C6 amended: the encoder follows the G.711 companding shape (bias 0x84,
exponent/mantissa segments, sign in the high-order bit, complemented byte)
but clips the magnitude at 0x1FFF rather than 32635; it therefore agrees
with the standard per-sample encoder exactly on samples of magnitude at most
8191, and on such streams the PCM output path equals per-sample reference
G.711 encoding of the 3:1-decimated stream. -/
theorem c6_mu_law_amended :
    (∀ s : Int, -8191 ≤ s → s ≤ 8191 → linearToMuLawSample s = muLawRefSample s) ∧
    (∀ pcm : List Int,
      (∀ s ∈ downsamplePcm24To8 pcm, -8191 ≤ s ∧ s ≤ 8191) →
      encodeMuLaw (downsamplePcm24To8 pcm) =
        (downsamplePcm24To8 pcm).map muLawRefSample) := by
  have hsample : ∀ s : Int, -8191 ≤ s → s ≤ 8191 →
      linearToMuLawSample s = muLawRefSample s := by
    intro s h1 h2
    by_cases hs : s < 0
    · have hc1 : ¬(-s > MU_LAW_MAX) := by simp [MU_LAW_MAX]; omega
      have hc2 : ¬(-s > (32635 : Int)) := by omega
      simp only [linearToMuLawSample, muLawRefSample, if_pos hs, if_neg hc1, if_neg hc2]
    · have hc1 : ¬(s > MU_LAW_MAX) := by simp [MU_LAW_MAX]; omega
      have hc2 : ¬(s > (32635 : Int)) := by omega
      simp only [linearToMuLawSample, muLawRefSample, if_neg hs, if_neg hc1, if_neg hc2]
  refine ⟨hsample, ?_⟩
  intro pcm hrange
  rw [encodeMuLaw]
  exact List.map_congr_left (fun s hmem =>
    hsample s (hrange s hmem).1 (hrange s hmem).2)

/-- Witness for C6 (amended), applying the agreement at sample 1000 and the
stream equation on a small in-range buffer. -/
theorem c6_mu_law_amended_witness :
    linearToMuLawSample 1000 = muLawRefSample 1000 ∧
    encodeMuLaw (downsamplePcm24To8 [1000, 2, 3]) =
      (downsamplePcm24To8 [1000, 2, 3]).map muLawRefSample :=
  ⟨c6_mu_law_amended.1 1000 (by norm_num) (by norm_num),
    c6_mu_law_amended.2 [1000, 2, 3] (by decide)⟩

/-- C7 counterexample: the claim that no stored malformed busy interval is
silently dropped from conflict checks fails — a stored busy interval with
inverted bounds is filtered out by `getOccupiedSlots` and `checkSlot`
answers ok with no conflicts and no error, exactly as if the interval were
absent. -/
theorem c7_malformed_counterexample :
    let badSt : EngineState :=
      { occupied := [{ start := TimeStr.iso 100, stop := TimeStr.iso 0 }],
        reqTimezone := none }
    let emptySt : EngineState := { occupied := [], reqTimezone := none }
    let req : CheckSlotReq :=
      { calendarIds := [], start := TimeStr.iso 0, stop := TimeStr.iso 50,
        timezone := none, bufferBeforeMinutes := none, bufferAfterMinutes := none }
    getOccupiedSlots badSt.occupied = [] ∧
    (checkSlot badSt req).ok = true ∧
    checkSlot badSt req = checkSlot emptySt req := by
  refine ⟨by decide, by decide, by decide⟩

/-- C7 amended: `findSlots` answers a structured error result (ok false,
error set, no slots) for a malformed or inverted window; `checkSlot` answers
a structured error for a malformed or inverted slot; but stored busy
intervals that fail to parse are silently filtered out of conflict checking
rather than surfacing an error. -/
theorem c7_interval_errors :
    (∀ (env : CalEnv) (st : EngineState) (req : FindSlotsReq),
      (∀ a b, dateParse req.windowStart = some a → dateParse req.windowEnd = some b →
        b ≤ a) →
      (findSlots env st req).ok = false ∧
      (findSlots env st req).error = some "Invalid scheduling window." ∧
      (findSlots env st req).slots = []) ∧
    (∀ (st : EngineState) (req : CheckSlotReq),
      (∀ a b, dateParse req.start = some a → dateParse req.stop = some b → b ≤ a) →
      checkSlot st req =
        { ok := false, conflicts := none, error := some "Invalid slot time." }) ∧
    (∀ (occupied : List CalendarSlot) (slot : CalendarSlot),
      normalizeSlot slot = none →
      getOccupiedSlots (slot :: occupied) = getOccupiedSlots occupied) := by
  refine ⟨?_, ?_, ?_⟩
  · intro env st req hinv
    cases hws : dateParse req.windowStart with
    | none =>
      cases hwe : dateParse req.windowEnd <;>
        simp [findSlots, hws, hwe]
    | some a =>
      cases hwe : dateParse req.windowEnd with
      | none => simp [findSlots, hws, hwe]
      | some b =>
        have hba : b ≤ a := hinv a b hws hwe
        simp [findSlots, hws, hwe, hba]
  · intro st req hinv
    cases hs : dateParse req.start with
    | none =>
      cases he : dateParse req.stop <;>
        simp [checkSlot, hs, he]
    | some a =>
      cases he : dateParse req.stop with
      | none => simp [checkSlot, hs, he]
      | some b =>
        have hba : b ≤ a := hinv a b hs he
        simp [checkSlot, hs, he, hba]
  · intro occupied slot hbad
    rw [getOccupiedSlots, getOccupiedSlots, List.filterMap_cons_none hbad]

/-- Witness for C7 at a concrete malformed slot request. -/
theorem c7_interval_errors_witness :
    checkSlot { occupied := [], reqTimezone := none }
      { calendarIds := [], start := TimeStr.bad, stop := TimeStr.bad,
        timezone := none, bufferBeforeMinutes := none, bufferAfterMinutes := none } =
      { ok := false, conflicts := none, error := some "Invalid slot time." } :=
  c7_interval_errors.2.1 _ _ (fun a b ha _ => nomatch ha)

/-- Evaluation of `checkSlot` on a well-formed slot: ok with the overlap
conflict list. -/
theorem checkSlot_parse_ok (st : EngineState) (req : CheckSlotReq) (a b : Int)
    (hs : dateParse req.start = some a) (he : dateParse req.stop = some b)
    (hab : a < b) :
    checkSlot st req =
      { ok := true,
        conflicts := some (((getOccupiedSlots st.occupied).filter (fun slot =>
          overlapsB (a - (req.bufferBeforeMinutes.getD 0) * MINUTE_MS)
            (b + (req.bufferAfterMinutes.getD 0) * MINUTE_MS)
            slot.startMs slot.endMs)).map (fun slot =>
          { summary := "Busy", start := slot.start, stop := slot.stop })),
        error := none } := by
  have hnba : ¬ b ≤ a := by omega
  simp [checkSlot, hs, he, hnba]

/-- C8: createEvent answers a structured error and leaves the stored busy
list untouched when the requested interval is malformed/inverted or its
range overlaps a stored busy interval (createEvent re-validates with zero
buffers); it succeeds exactly otherwise, and then appends exactly the
requested interval and returns a synthetic event reference. -/
theorem c8_create_event (uuid : String) (st : EngineState) (req : CreateEventReq) :
    (((∀ a b, dateParse req.start = some a → dateParse req.stop = some b → b ≤ a) ∨
      (∃ a b, dateParse req.start = some a ∧ dateParse req.stop = some b ∧
        hasConflict (getOccupiedSlots st.occupied) a b none none = true)) →
      ((createEvent uuid st req).1.ok = false ∧
        (createEvent uuid st req).1.error.isSome = true ∧
        (createEvent uuid st req).2 = st)) ∧
    ((createEvent uuid st req).1.ok = true →
      ((createEvent uuid st req).2.occupied =
          st.occupied ++ [{ start := req.start, stop := req.stop }] ∧
        (createEvent uuid st req).1.eventId = some ("evt_" ++ uuid))) ∧
    ((createEvent uuid st req).1.ok = true ↔
      ¬((∀ a b, dateParse req.start = some a → dateParse req.stop = some b → b ≤ a) ∨
        (∃ a b, dateParse req.start = some a ∧ dateParse req.stop = some b ∧
          hasConflict (getOccupiedSlots st.occupied) a b none none = true))) := by
  cases hs : dateParse req.start with
  | none =>
    have hres : (createEvent uuid st req).1.ok = false ∧
        (createEvent uuid st req).1.error.isSome = true ∧
        (createEvent uuid st req).2 = st := by
      cases he : dateParse req.stop <;> simp [createEvent, checkSlot, hs, he]
    refine ⟨fun _ => hres, ?_, ?_⟩
    · intro hok; rw [hres.1] at hok; cases hok
    · constructor
      · intro hok; rw [hres.1] at hok; cases hok
      · intro hnot
        exact absurd (Or.inl (fun _ _ ha _ => nomatch ha)) hnot
  | some a =>
    cases he : dateParse req.stop with
    | none =>
      have hres : (createEvent uuid st req).1.ok = false ∧
          (createEvent uuid st req).1.error.isSome = true ∧
          (createEvent uuid st req).2 = st := by
        simp [createEvent, checkSlot, hs, he]
      refine ⟨fun _ => hres, ?_, ?_⟩
      · intro hok; rw [hres.1] at hok; cases hok
      · constructor
        · intro hok; rw [hres.1] at hok; cases hok
        · intro hnot
          exact absurd (Or.inl (fun x y _ hy => nomatch hy)) hnot
    | some b =>
      by_cases hba : b ≤ a
      · have hres : (createEvent uuid st req).1.ok = false ∧
            (createEvent uuid st req).1.error.isSome = true ∧
            (createEvent uuid st req).2 = st := by
          simp [createEvent, checkSlot, hs, he, hba]
        refine ⟨fun _ => hres, ?_, ?_⟩
        · intro hok; rw [hres.1] at hok; cases hok
        · constructor
          · intro hok; rw [hres.1] at hok; cases hok
          · intro hnot
            refine absurd (Or.inl (fun x y hx hy => ?_)) hnot
            have hax : a = x := Option.some.inj hx
            have hby : b = y := Option.some.inj hy
            omega
      · have hab : a < b := by omega
        have hcheck := checkSlot_parse_ok st
          { calendarIds := [req.calendarId], start := req.start, stop := req.stop,
            timezone := some req.timezone, bufferBeforeMinutes := none,
            bufferAfterMinutes := none } a b hs he hab
        have hbufeq : ∀ x y : Int, x - (Option.getD (none : Option Int) 0) * MINUTE_MS = x ∧
            y + (Option.getD (none : Option Int) 0) * MINUTE_MS = y := by
          intro x y; constructor <;> simp
        by_cases hconf : hasConflict (getOccupiedSlots st.occupied) a b none none = true
        · have hany : (getOccupiedSlots st.occupied).any (fun slot =>
              overlapsB (a - (Option.getD (none : Option Int) 0) * MINUTE_MS)
                (b + (Option.getD (none : Option Int) 0) * MINUTE_MS)
                slot.startMs slot.endMs) = true := hconf
          obtain ⟨x, hxmem, hxp⟩ := List.any_eq_true.mp hany
          have hres : (createEvent uuid st req).1.ok = false ∧
              (createEvent uuid st req).1.error.isSome = true ∧
              (createEvent uuid st req).2 = st := by
            rw [createEvent, hcheck]
            have hxp2 : overlapsB a b x.startMs x.endMs = true := by simpa using hxp
            have hmem2 : x ∈ (getOccupiedSlots st.occupied).filter (fun slot =>
                overlapsB a b slot.startMs slot.endMs) :=
              List.mem_filter.mpr ⟨hxmem, hxp2⟩
            have hlen2 : 0 < ((getOccupiedSlots st.occupied).filter (fun slot =>
                overlapsB a b slot.startMs slot.endMs)).length := by
              rw [List.length_pos]
              exact List.ne_nil_of_mem hmem2
            simp [hlen2]
          refine ⟨fun _ => hres, ?_, ?_⟩
          · intro hok; rw [hres.1] at hok; cases hok
          · constructor
            · intro hok; rw [hres.1] at hok; cases hok
            · intro hnot
              exact absurd (Or.inr ⟨a, b, rfl, rfl, hconf⟩) hnot
        · have hany : (getOccupiedSlots st.occupied).any (fun slot =>
              overlapsB (a - (Option.getD (none : Option Int) 0) * MINUTE_MS)
                (b + (Option.getD (none : Option Int) 0) * MINUTE_MS)
                slot.startMs slot.endMs) = false := by
            rw [← Bool.not_eq_true]
            exact hconf
          have hfil2 : (getOccupiedSlots st.occupied).filter (fun slot =>
              overlapsB a b slot.startMs slot.endMs) = [] := by
            rw [List.filter_eq_nil_iff]
            intro x hx
            have := List.any_eq_false.mp hany x hx
            simpa using this
          have hok : (createEvent uuid st req).1.ok = true ∧
              (createEvent uuid st req).2.occupied =
                st.occupied ++ [{ start := req.start, stop := req.stop }] ∧
              (createEvent uuid st req).1.eventId = some ("evt_" ++ uuid) := by
            rw [createEvent, hcheck]
            simp [hfil2]
          refine ⟨?_, fun _ => ⟨hok.2.1, hok.2.2⟩, ?_⟩
          · intro hbad
            cases hbad with
            | inl hmal =>
              have := hmal a b rfl rfl
              omega
            | inr hcon =>
              obtain ⟨x, y, hx, hy, hc⟩ := hcon
              have hax : a = x := Option.some.inj hx
              have hby : b = y := Option.some.inj hy
              subst hax; subst hby
              exact absurd hc hconf
          · constructor
            · intro _ hbad
              cases hbad with
              | inl hmal =>
                have := hmal a b rfl rfl
                omega
              | inr hcon =>
                obtain ⟨x, y, hx, hy, hc⟩ := hcon
                have hax : a = x := Option.some.inj hx
                have hby : b = y := Option.some.inj hy
                subst hax; subst hby
                exact absurd hc hconf
            · intro _
              exact hok.1

/-- Witness for C8 at a concrete successful booking. -/
theorem c8_create_event_witness :
    let st : EngineState := { occupied := [], reqTimezone := none }
    let req : CreateEventReq :=
      { calendarId := "primary", start := TimeStr.iso 0, stop := TimeStr.iso 60000,
        timezone := "UTC", title := "t" }
    (createEvent "u" st req).2.occupied =
        [] ++ [{ start := TimeStr.iso 0, stop := TimeStr.iso 60000 }] ∧
      (createEvent "u" st req).1.eventId = some ("evt_" ++ "u") :=
  (c8_create_event "u" { occupied := [], reqTimezone := none }
    { calendarId := "primary", start := TimeStr.iso 0, stop := TimeStr.iso 60000,
      timezone := "UTC", title := "t" }).2.1 (by decide)

/-- Every slot emitted by the findSlots loop starts at some ms value `s`,
ends exactly `durationMs` later, and passes the buffered overlap test
against the occupied list the loop was given. -/
theorem findSlotsLoop_mem (env : CalEnv) (occupied : List NormalizedSlot)
    (wh : Option WorkingHours) (tz : Option String)
    (windowEndMs durationMs granularityMs : Int) (bb ba : Option Int) :
    ∀ (fuel : Nat) (t : Int) (slot : CalendarSlot),
      slot ∈ findSlotsLoop env occupied wh tz windowEndMs durationMs granularityMs
        bb ba fuel t →
      ∃ s : Int, slot.start = TimeStr.iso s ∧ slot.stop = TimeStr.iso (s + durationMs) ∧
        hasConflict occupied s (s + durationMs) bb ba = false := by
  intro fuel
  induction fuel with
  | zero =>
    intro t slot h
    simp [findSlotsLoop] at h
  | succ n ih =>
    intro t slot h
    rw [findSlotsLoop] at h
    by_cases hc : t + durationMs ≤ windowEndMs
    · rw [if_pos hc] at h
      by_cases hw : isWithinWorkingHours env t (t + durationMs) wh tz = true
      · rw [hw] at h
        simp only [Bool.not_true, Bool.false_eq_true, if_false] at h
        by_cases hcf : hasConflict occupied t (t + durationMs) bb ba = true
        · rw [if_pos hcf] at h
          exact ih (t + granularityMs) slot h
        · rw [if_neg hcf] at h
          cases h with
          | head =>
            exact ⟨t, rfl, rfl, by rw [← Bool.not_eq_true]; exact hcf⟩
          | tail _ htail =>
            exact ih (t + granularityMs) slot htail
      · simp only [Bool.not_eq_true] at hw
        rw [hw] at h
        simp only [Bool.not_false, if_true] at h
        exact ih (t + granularityMs) slot h
    · rw [if_neg hc] at h
      cases h

/-- Every slot returned by `findSlots` starts at some ms value, lasts exactly
the (clamped) requested duration, and passes the buffered overlap test with
the request's buffers against the occupied list derived from the state. -/
theorem findSlots_slots_mem (env : CalEnv) (st : EngineState) (req : FindSlotsReq)
    (slot : CalendarSlot) (hmem : slot ∈ (findSlots env st req).slots) :
    ∃ s : Int, slot.start = TimeStr.iso s ∧
      slot.stop = TimeStr.iso (s + (max 1 req.durationMinutes) * MINUTE_MS) ∧
      hasConflict (getOccupiedSlots st.occupied) s
        (s + (max 1 req.durationMinutes) * MINUTE_MS)
        req.bufferBeforeMinutes req.bufferAfterMinutes = false := by
  rw [findSlots] at hmem
  split at hmem
  · next ws we hws hwe =>
    split at hmem
    · next hba => simp at hmem
    · next hba =>
      exact findSlotsLoop_mem env (getOccupiedSlots st.occupied) req.workingHours
        (some (resolveTimezone env st req.timezone)) we
        ((max 1 req.durationMinutes) * MINUTE_MS)
        ((max 1 (req.granularityMinutes.getD (max 1 req.durationMinutes))) * MINUTE_MS)
        req.bufferBeforeMinutes req.bufferAfterMinutes _ ws slot hmem
  · next a b hother => simp at hmem

/-- C5: every slot in the list returned by `findSlots`, when passed to
`checkSlot` with the same buffers against the same stored busy intervals
(the remaining `CheckSlotReq` fields — calendar ids and timezone — are not
consulted by `checkSlot`), yields ok with an empty conflicts list. -/
theorem c5_find_slots_round_trip (env : CalEnv) (st : EngineState)
    (req : FindSlotsReq) (slot : CalendarSlot)
    (hmem : slot ∈ (findSlots env st req).slots) :
    (checkSlot st ⟨[], slot.start, slot.stop, none, req.bufferBeforeMinutes,
      req.bufferAfterMinutes⟩).ok = true ∧
    (checkSlot st ⟨[], slot.start, slot.stop, none, req.bufferBeforeMinutes,
      req.bufferAfterMinutes⟩).conflicts = some [] := by
  obtain ⟨s, hstart, hstop, hnc⟩ := findSlots_slots_mem env st req slot hmem
  have hpos : s < s + (max 1 req.durationMinutes) * MINUTE_MS := by
    have hdm : (1 : Int) ≤ max 1 req.durationMinutes := le_max_left 1 req.durationMinutes
    have h60 : MINUTE_MS = 60000 := rfl
    have : (0 : Int) < (max 1 req.durationMinutes) * MINUTE_MS := by
      rw [h60]
      omega
    omega
  have hcheck := checkSlot_parse_ok st
    ⟨[], slot.start, slot.stop, none, req.bufferBeforeMinutes, req.bufferAfterMinutes⟩ s
    (s + (max 1 req.durationMinutes) * MINUTE_MS)
    (by rw [hstart]; rfl) (by rw [hstop]; rfl) hpos
  rw [hcheck]
  refine ⟨rfl, ?_⟩
  have hany : (getOccupiedSlots st.occupied).any (fun x =>
      overlapsB (s - (req.bufferBeforeMinutes.getD 0) * MINUTE_MS)
        (s + (max 1 req.durationMinutes) * MINUTE_MS +
          (req.bufferAfterMinutes.getD 0) * MINUTE_MS)
        x.startMs x.endMs) = false := by
    rw [← Bool.not_eq_true]
    intro htrue
    rw [hasConflict] at hnc
    simp only [htrue] at hnc
    cases hnc
  have hfil : (getOccupiedSlots st.occupied).filter (fun x =>
      overlapsB (s - (req.bufferBeforeMinutes.getD 0) * MINUTE_MS)
        (s + (max 1 req.durationMinutes) * MINUTE_MS +
          (req.bufferAfterMinutes.getD 0) * MINUTE_MS)
        x.startMs x.endMs) = [] := by
    rw [List.filter_eq_nil_iff]
    intro x hx
    have := List.any_eq_false.mp hany x hx
    simpa using this
  simp only [Option.some.injEq]
  rw [hfil]
  rfl

/-- Witness for C5 on a concrete one-hour window with a 30-minute duration:
the first returned slot passes checkSlot with no conflicts. -/
theorem c5_find_slots_round_trip_witness :
    let st : EngineState := { occupied := [], reqTimezone := none }
    let req : FindSlotsReq :=
      { windowStart := TimeStr.iso 0, windowEnd := TimeStr.iso 3600000,
        durationMinutes := 30, timezone := some "UTC", granularityMinutes := none,
        bufferBeforeMinutes := none, bufferAfterMinutes := none, workingHours := none }
    let slot : CalendarSlot := { start := TimeStr.iso 0, stop := TimeStr.iso 1800000 }
    (checkSlot st ⟨[], slot.start, slot.stop, none, req.bufferBeforeMinutes,
      req.bufferAfterMinutes⟩).ok = true ∧
    (checkSlot st ⟨[], slot.start, slot.stop, none, req.bufferBeforeMinutes,
      req.bufferAfterMinutes⟩).conflicts = some [] :=
  c5_find_slots_round_trip { systemTimeZone := "UTC", zonedParts := fun _ _ => none }
    { occupied := [], reqTimezone := none }
    { windowStart := TimeStr.iso 0, windowEnd := TimeStr.iso 3600000,
      durationMinutes := 30, timezone := some "UTC", granularityMinutes := none,
      bufferBeforeMinutes := none, bufferAfterMinutes := none, workingHours := none }
    { start := TimeStr.iso 0, stop := TimeStr.iso 1800000 } (by decide)

/-- Witness for C4 at a concrete configuration and status. -/
theorem c4_retry_decision_witness :
    let cfg : RetryConfig :=
      { maxAttempts := 3, initialDelayMs := 60000, backoffFactor := 2,
        retryStatuses := ["busy", "no_answer"] }
    let c : CallRec :=
      { status := "dialing", attempt := 1, report := none, completedAt := none,
        updatedAt := 0 }
    (handleProviderStatus cfg c "no-answer" 0).2 = true ↔
      (c.attempt < cfg.maxAttempts ∧
        ∃ r ∈ cfg.retryStatuses, normalizeStatus "no-answer" = normalizeStatus r) :=
  c4_retry_decision.1 _ _ "no-answer" 0
